import Mathlib

/-!
# Verification of the Catan rules engine

Shallow embedding of the repository's three engine variants:

* `PT` — `tests/play_test.py` (the most complete variant: full turn/phase
  state machine, placement validator, dice handling, discard, robber).
* `DP` — `displayer.py` (board initialization by spiral, initial resource
  grant, `Player.remove_resources`).
* `ST` — `src/structure.py` (numpy-based game state: `add_edge`/`has_edge`,
  `initialize_random_board`, `_index_tiles_by_number`, `distribute_resources`).

The board geometry is embedded at two levels of fidelity.

The *exact grid*: every coordinate produced by the Python code is an IEEE
double approximation of a point `x = a * (S/2) * sqrt 3`, `y = b * (S/2)`
with `a b : ℤ` and `S = 70` (hexagon vertices sit at angles `60*i - 30`
degrees, whose cosines and sines are `0, ±1/2, ±1, ±(sqrt 3)/2`).  A point
is represented by the integer pair `(a, b)`; the squared distance between
two points, in units of `(S/2)^2`, is `3*(Δa)^2 + (Δb)^2`, so every
`math.hypot(..) < bound` proximity test in the source (whose thresholds are
far from the attainable grid distances) becomes an exact integer comparison:

* `hypot < SIZE`       ⟺ `3*Δa^2 + Δb^2 < 4`
* `hypot < SIZE*0.6`   ⟺ `3*Δa^2 + Δb^2 ≤ 1`   (`< 1.44`)
* `hypot < SIZE*1.1`   ⟺ `3*Δa^2 + Δb^2 ≤ 4`   (`< 4.84`)

The *identity partition*: node identity in `play_test.py` is bit-equality
(`==`) of the recomputed doubles, and the per-tile recomputations of a
shared corner do **not** all agree bit-for-bit.  Evaluating the source's
double-precision expressions exactly as written, the 114 corner instances
fall into 104 distinct double values (not the 54 grid points) and the edge
dedup leaves 113 edges (not 72).  The `PT` namespace idealizes identity to
the exact grid, collapsing each bundle of nearly-equal doubles to its
common grid point — adequate wherever behaviour does not depend on two
copies of the same corner being distinguished.  The `PTF` namespace keeps
the program's actual identity classes (each class named by the flat index
of its first corner instance) and is used where the distinction is
observable: the settlement distance rule of claim C2.

Python exceptions are modelled by `PyR`: a raising operation yields
`PyR.crash s msg` where `s` is the state as mutated up to the raise.
-/

/-- The five resource kinds of `play_test.py` / `displayer.py`, plus desert
(the strings `"sheep"`, `"wheat"`, `"rock"`, `"clay"`, `"wood"`, `"desert"`). -/
inductive Res where
  | sheep | wheat | rock | clay | wood | desert
deriving DecidableEq, Repr, Fintype

/-- The fixed kind ordering used when summing `Counter.values()` and when
flattening a `Counter` into a card pool. -/
def resKinds : List Res := [.sheep, .wheat, .rock, .clay, .wood, .desert]

/-- A board coordinate `(a, b)` standing for the exact point
`(a * 35 * sqrt 3, b * 35)`. -/
abbrev Point := Int × Int

/-- An edge as stored by the source: an ordered pair of endpoint coordinates. -/
abbrev Edge := Point × Point

/-- Squared distance between two grid points in units of `35^2`
(`hypot(p-q)^2 = 35^2 * (3*Δa^2 + Δb^2)`). -/
def sqDist (p q : Point) : Int :=
  3 * (p.1 - q.1) ^ 2 + (p.2 - q.2) ^ 2

/-- Python's `<` on coordinate pairs (lexicographic), as used by
`sorted([point_A, point_B])`: compare `x` first, then `y`.  On the exact
grid `x`-order is the order of the `a` component. -/
def pleb (p q : Point) : Bool :=
  p.1 < q.1 || (p.1 == q.1 && p.2 ≤ q.2)

/-- `tuple(sorted([p, q]))`: canonicalize an edge by sorting its endpoints. -/
def sortPair (p q : Point) : Edge :=
  if pleb p q then (p, q) else (q, p)

/-- Result of a Python operation: either a final state or an exception,
carrying the state as mutated up to the raise. -/
inductive PyR (σ : Type) where
  | ok (s : σ)
  | crash (s : σ) (msg : String)
deriving DecidableEq, Repr

namespace PyR

/-- The state carried by a result (final state, or state at the raise). -/
def state {σ : Type} : PyR σ → σ
  | .ok s => s
  | .crash s _ => s

/-- Whether the operation completed without raising. -/
def isOk {σ : Type} : PyR σ → Bool
  | .ok _ => true
  | .crash _ _ => false

/-- Whether the operation raised an exception. -/
def isCrash {σ : Type} : PyR σ → Bool
  | .ok _ => false
  | .crash _ _ => true

/-- Sequencing: an exception aborts the rest of the handler. -/
def bind {σ : Type} : PyR σ → (σ → PyR σ) → PyR σ
  | .ok s, f => f s
  | .crash s m, _ => .crash s m

end PyR

namespace PT

/-! ## `tests/play_test.py` -/

/-- The two setup actions of the fixed setup sequence. -/
inductive Act where
  | settlement | road
deriving DecidableEq, Repr

/-- The five phases of the turn/phase state machine
(`'setup'`, `'regular'`, `'discard'`, `'robber'`, `'rob_choose'`). -/
inductive Phase where
  | setup | regular | discard | robber | robChoose
deriving DecidableEq, Repr

/-- `board_positions`: row layout of the 3-4-5-4-3 board. -/
def rowsPT : List Nat := [3, 4, 5, 4, 3]

/-- Tile centers, row by row (`self.centers`).  Row `r` has `y = (3r-6)*35`
and its `i`-th tile has `x = (2i-(cnt-1)) * 35 * sqrt 3`. -/
def centersRows : List (List Point) :=
  (List.range 5).map fun r =>
    (List.range (rowsPT.getD r 0)).map fun i =>
      ((2 * (i : Int) - ((rowsPT.getD r 0 : Int) - 1), 3 * (r : Int) - 6))

/-- Tile centers in flat order (flat index = row-major, as `flat_to_rc`). -/
def centersFlat : List Point := centersRows.foldr (· ++ ·) []

/-- `hexagon_vertices(cx, cy, SIZE)`: the 6 corners at angles `60*i - 30`
degrees, `i = 0..5`, as exact grid offsets. -/
def hexVerts (c : Point) : List Point :=
  [ (c.1 + 1, c.2 - 1), (c.1 + 1, c.2 + 1), (c.1, c.2 + 2),
    (c.1 - 1, c.2 + 1), (c.1 - 1, c.2 - 1), (c.1, c.2 - 2) ]

/-- `self.tile_nodes`: the 6 corner coordinates of each tile, idealized to
the exact grid.  The source recomputes each tile's corners in floating
point and the copies of a shared corner are mostly *not* bit-equal;
`PTF.nodeClass` records the program's actual identity classes. -/
def tileNodes : List (List Point) := centersFlat.map hexVerts

/-- The 6 boundary edges of one tile: consecutive corner pairs, canonicalized. -/
def tileEdgesOf (verts : List Point) : List Edge :=
  (List.range 6).map fun i =>
    sortPair (verts.getD i (0, 0)) (verts.getD ((i + 1) % 6) (0, 0))

/-- `self.tile_edges`. -/
def tileEdges : List (List Edge) := tileNodes.map tileEdgesOf

/-- `self.valid_nodes`: deduplicated corner coordinates.  On the exact
grid this is the intended board of 54 nodes; the program's set, built from
the `==`-distinct doubles, has 104 elements (`PTF.validNodesF`). -/
def validNodes : List Point := (tileNodes.foldr (· ++ ·) []).dedup

/-- `self.valid_edges`: deduplicated canonical edges.  On the exact grid
this is the intended board of 72 edges; the program's dict, keyed by the
`==`-distinct double pairs, has 113 entries (`PTF.validEdgesF`). -/
def validEdges : List Edge := (tileEdges.foldr (· ++ ·) []).dedup

/-- The endpoint of `e` other than `node`
(`other = e[1] if e[0]==node else e[0]`). -/
def otherEnd (e : Edge) (node : Point) : Point :=
  if e.1 = node then e.2 else e.1

/-- A player (`class Player`): resource `Counter`, global house IDs,
global road IDs. -/
structure Player where
  color : String
  resources : Res → Int
  houses : List Nat
  roads : List Nat

/-- The empty player used as an out-of-range lookup default. -/
def defPlayer : Player :=
  { color := "", resources := fun _ => 0, houses := [], roads := [] }

/-- `sum(p.resources.values())`. -/
def totalCards (p : Player) : Int :=
  (resKinds.map fun k => p.resources k).sum

/-- Add `v` to the player's count of kind `k`. -/
def addRes (p : Player) (k : Res) (v : Int) : Player :=
  { p with resources := fun k2 => if k2 = k then p.resources k2 + v else p.resources k2 }

/-- The full game state of `play_test.GameState`.  `board` holds the
`[res, num]` pairs row by row; the discard/rob fields default to empty
before they are first assigned. -/
structure GState where
  n : Nat
  players : List Player
  setupSeq : List (Nat × Act)
  seqI : Nat
  phase : Phase
  diceRolled : Bool
  diceResult : Option (Nat × Nat)
  board : List (List (Res × Option Nat))
  robber : Nat
  currentIdx : Nat
  currentAct : Act
  discardList : List Nat
  discardPtr : Nat
  toDiscard : Int
  discarded : Int
  robVictims : List Nat

/-- `self.players[self.current_idx]` (the `current_player` property). -/
def currentP (s : GState) : Player := s.players.getD s.currentIdx defPlayer

/-- Replace the player at index `i` by `f` applied to it. -/
def modifyAt (s : GState) (i : Nat) (f : Player → Player) : GState :=
  { s with players := s.players.set i (f (s.players.getD i defPlayer)) }

/-- Mutate the current player. -/
def modifyCurrent (s : GState) (f : Player → Player) : GState :=
  modifyAt s s.currentIdx f

end PT
namespace PT

/-- A house ID `hid` decodes as `tid, loc = divmod(hid-1, 12)` with corner
`loc` (level 1) or `loc-6` (level 2); this returns the corner's coordinate. -/
def nodeOfHid (hid : Nat) : Option Point :=
  let tid := (hid - 1) / 12
  let loc := (hid - 1) % 12
  let cor := if loc < 6 then loc else loc - 6
  (tileNodes.get? tid).bind fun verts => verts.get? cor

/-- Whether some player's house occupies the node with coordinate `x`. -/
def occupiedBy (s : GState) (x : Point) : Bool :=
  s.players.any fun p => p.houses.any fun hid => nodeOfHid hid == some x

/-- `is_valid_settlement(node)`: the node is not occupied and no
graph-neighbour (via `valid_edges`) is occupied. -/
def isValidSettlement (s : GState) (node : Point) : Bool :=
  !(occupiedBy s node) &&
    validEdges.all fun e =>
      if node = e.1 ∨ node = e.2 then !(occupiedBy s (otherEnd e node)) else true

/-- `house_id(node)`: first tile containing the node; ID `tid*12 + local`
with `local = verts.index(node)+1`. -/
def houseId (node : Point) : Option Nat :=
  tileNodes.enum.findSome? fun tv =>
    if tv.2.contains node then
      some (tv.1 * 12 + (tv.2.findIdx (fun v => v == node) + 1))
    else none

/-- `edge_id(edge)`: first `(tid, i)` with `tile_edges[tid][i] == edge`;
ID `tid*6 + (i+1)`. -/
def edgeId (e : Edge) : Option Nat :=
  tileEdges.enum.findSome? fun te =>
    (te.2.enum.findSome? fun ie =>
      if ie.2 == e then some (te.1 * 6 + (ie.1 + 1)) else none)

/-- A road ID decodes as `otid, oi = divmod(orid-1, 6)`. -/
def edgeOfRid (rid : Nat) : Option Edge :=
  (tileEdges.get? ((rid - 1) / 6)).bind fun es => es.get? ((rid - 1) % 6)

/-- `can_build_settlement`: 1 sheep + 1 wheat + 1 clay + 1 wood. -/
def canBuildSettlement (s : GState) : Bool :=
  [Res.sheep, Res.wheat, Res.clay, Res.wood].all fun r =>
    decide (1 ≤ (currentP s).resources r)

/-- `can_build_road`: 1 clay + 1 wood. -/
def canBuildRoad (s : GState) : Bool :=
  decide (1 ≤ (currentP s).resources Res.clay) &&
    decide (1 ≤ (currentP s).resources Res.wood)

/-- The fixed setup sequence: forward settlements & roads, then reverse. -/
def mkSetupSeq (n : Nat) : List (Nat × Act) :=
  ((List.range n).map fun i => [(i, Act.settlement), (i, Act.road)]).foldr (· ++ ·) []
    ++ (((List.range n).reverse.map fun i => [(i, Act.settlement), (i, Act.road)]).foldr (· ++ ·) [])

/-- `next_setup`: advance the setup cursor, or enter regular play. -/
def nextSetup (s : GState) : GState :=
  let i := s.seqI + 1
  if i < s.setupSeq.length then
    let pr := s.setupSeq.getD i (0, Act.settlement)
    { s with seqI := i, currentIdx := pr.1, currentAct := pr.2 }
  else
    { s with seqI := i, phase := .regular, currentIdx := 0 }

/-- `next_player`: round-robin advance, resetting the dice. -/
def nextPlayer (s : GState) : GState :=
  { s with currentIdx := (s.currentIdx + 1) % s.n,
           diceRolled := false, diceResult := none }

/-- `[i for i,p in enumerate(self.players) if sum(p.resources.values())>7]`. -/
def overLimit (ps : List Player) : List Nat :=
  (ps.enum.filter fun ip => decide (7 < totalCards ip.2)).map Prod.fst

/-- `handle_dice`: records the dice, then on a 7 prepares the discard list
and enters `discard`/`robber`; on any other total the distribution loop's
first statement evaluates `len(self.rows[0])` — but `self.rows[0]` is the
integer `3`, so Python raises `TypeError` before crediting anything. -/
def handleDice (s : GState) (d1 d2 : Nat) : PyR GState :=
  let s1 := { s with diceResult := some (d1, d2), diceRolled := true }
  if d1 + d2 = 7 then
    let dl := overLimit s1.players
    let s2 := { s1 with discardList := dl, discardPtr := 0 }
    match dl with
    | i :: _ =>
      let s3 := { s2 with phase := .discard, currentIdx := i }
      .ok { s3 with toDiscard := Int.fdiv (totalCards (currentP s3)) 2, discarded := 0 }
    | [] => .ok { s2 with phase := .robber }
  else
    if tileNodes.isEmpty then .ok s1
    else .crash s1 "TypeError: object of type int has no len"

/-- The initial-grant loop of the setup settlement handler:
`r,c = divmod(flat, len(game.rows))` (i.e. `divmod(flat, 5)`), then
`game.centers[r][c]` — which raises `IndexError` at `flat = 3` since row 0
has only 3 centers.  Grants from flats 0..2 (tiles 0..2) happen first. -/
def grantLoop (node : Point) : GState → List Nat → PyR GState
  | s, [] => .ok s
  | s, flat :: rest =>
    let r := flat / 5
    let c := flat % 5
    match (centersRows.getD r []).get? c with
    | none => .crash s "IndexError: list index out of range"
    | some ctr =>
      if sqDist ctr node ≤ 4 then
        match (s.board.getD r []).get? c with
        | none => .crash s "IndexError: list index out of range"
        | some rn =>
          let s2 := if rn.1 ≠ Res.desert then modifyCurrent s (addRes · rn.1 1) else s
          grantLoop node s2 rest
      else grantLoop node s rest

/-- The setup settlement placement: append the house, grant initial
resources when `seq_i >= n` (the source's condition — `n`, not `2n`), then
advance the setup cursor. -/
def setupSettle (s : GState) (node : Point) : PyR GState :=
  let hid := (houseId node).getD 0
  let s1 := modifyCurrent s fun p => { p with houses := p.houses ++ [hid] }
  let afterGrant := if s1.n ≤ s1.seqI then grantLoop node s1 (List.range 19) else .ok s1
  afterGrant.bind fun s2 => .ok (nextSetup s2)

/-- The setup-phase click handler: a settlement click is validated with
`is_valid_settlement`; a road click is accepted with **no** validity check. -/
def setupClick (s : GState) (hn : Option Point) (he : Option Edge) : PyR GState :=
  if s.phase = .setup then
    match hn with
    | some node =>
      if s.currentAct == Act.settlement && validNodes.contains node
          && isValidSettlement s node then
        setupSettle s node
      else
        match he with
        | some e =>
          if s.currentAct == Act.road && validEdges.contains e then
            .ok (nextSetup (modifyCurrent s fun p =>
              { p with roads := p.roads ++ [(edgeId e).getD 0] }))
          else .ok s
        | none => .ok s
    | none =>
      match he with
      | some e =>
        if s.currentAct == Act.road && validEdges.contains e then
          .ok (nextSetup (modifyCurrent s fun p =>
            { p with roads := p.roads ++ [(edgeId e).getD 0] }))
        else .ok s
      | none => .ok s
  else .ok s

/-- The regular-phase settlement build: cost check, validity check, pay
1 sheep + 1 wheat + 1 clay + 1 wood, append the house. -/
def buildSettle (s : GState) (node : Point) : PyR GState :=
  if s.phase == Phase.regular && validNodes.contains node
      && canBuildSettlement s && isValidSettlement s node then
    let s1 := modifyCurrent s fun p =>
      (([Res.sheep, Res.wheat, Res.clay, Res.wood].foldl (fun q r => addRes q r (-1)) p))
    .ok (modifyCurrent s1 fun p => { p with houses := p.houses ++ [(houseId node).getD 0] })
  else .ok s

/-- The right-click road build: cost check, then network connectivity
(touches one of your houses, or equals one of your roads), pay 1 clay +
1 wood, append the road. -/
def buildRoad (s : GState) (e : Edge) : PyR GState :=
  if s.phase == Phase.regular && validEdges.contains e && canBuildRoad s then
    let p := currentP s
    let valid :=
      (p.houses.any fun hid =>
        (nodeOfHid hid).any fun nd => nd == e.1 || nd == e.2) ||
      (p.roads.any fun orid => edgeOfRid orid == some e)
    if valid then
      .ok (modifyCurrent s fun q =>
        { (addRes (addRes q Res.clay (-1)) Res.wood (-1)) with
            roads := q.roads ++ [(edgeId e).getD 0] })
    else .ok s
  else .ok s

/-- The discard-phase click: buttons exist only for kinds with a positive
count; discard one card, and on meeting the quota advance to the next
over-limit player or to the robber phase. -/
def discardClick (s : GState) (r : Res) : PyR GState :=
  if s.phase == Phase.discard && decide (0 < (currentP s).resources r) then
    let s1 := modifyCurrent s (addRes · r (-1))
    let s1 := { s1 with discarded := s1.discarded + 1 }
    if s1.toDiscard ≤ s1.discarded then
      let s2 := { s1 with discardPtr := s1.discardPtr + 1 }
      if s2.discardPtr < s2.discardList.length then
        let s3 := { s2 with currentIdx := s2.discardList.getD s2.discardPtr 0 }
        .ok { s3 with toDiscard := Int.fdiv (totalCards (currentP s3)) 2, discarded := 0 }
      else .ok { s2 with phase := .robber }
    else .ok s1
  else .ok s

/-- `move_robber(node)`: the loop's first statement computes
`len(self.rows[0])` where `self.rows[0]` is the integer `3`, so Python
raises `TypeError` on the first iteration (the board has 19 tiles);
nothing is ever mutated. -/
def moveRobber (s : GState) (_node : Point) : PyR GState :=
  if tileNodes.isEmpty then .ok s
  else .crash s "TypeError: object of type int has no len"

/-- The card pool `[r]*cnt for r,cnt in victim.resources.items()`
(`[r]*cnt` is empty for non-positive counts). -/
def poolOf (p : Player) : List Res :=
  (resKinds.map fun k => List.replicate (p.resources k).toNat k).flatten

/-- `rob_transfer(victim_idx)` with the random pick modelled by an index
`i` into the pool (`random.choice`): move one card from the victim to the
current player, then return to regular play. -/
def robTransfer (s : GState) (v : Nat) (i : Nat) : GState :=
  let victim := s.players.getD v defPlayer
  let pool := poolOf victim
  let s1 :=
    if pool.isEmpty then s
    else
      let k := pool.getD (i % pool.length) Res.sheep
      let s2 := modifyAt s v (addRes · k (-1))
      modifyCurrent s2 (addRes · k 1)
  { s1 with phase := .regular }

/-- Player intents, one per frame, as delivered by the event loop.  Hover
targets are always members of `valid_nodes` / `valid_edges`; phase-specific
buttons only exist in their phase (guards re-checked in `step`). -/
inductive Ev where
  | setupClick (hn : Option Point) (he : Option Edge)
  | rollDice (d1 d2 : Nat)
  | endTurn
  | buildSettlement (node : Point)
  | buildRoadEv (e : Edge)
  | discardEv (r : Res)
  | robberClick (node : Point)
  | robChooseEv (v i : Nat)

/-- One step of the event loop. -/
def step (s : GState) : Ev → PyR GState
  | .setupClick hn he => setupClick s hn he
  | .rollDice d1 d2 =>
    if s.phase == Phase.regular && !s.diceRolled then handleDice s d1 d2 else .ok s
  | .endTurn =>
    if s.phase == Phase.regular && s.diceRolled then .ok (nextPlayer s) else .ok s
  | .buildSettlement node => buildSettle s node
  | .buildRoadEv e => buildRoad s e
  | .discardEv r => discardClick s r
  | .robberClick node =>
    if s.phase == Phase.robber && validNodes.contains node then moveRobber s node
    else .ok s
  | .robChooseEv v i =>
    if s.phase == Phase.robChoose && s.robVictims.contains v then
      .ok (robTransfer s v i)
    else .ok s

/-- `PLAYER_COLORS`. -/
def playerColors : List String := ["red", "blue", "green", "orange"]

/-- The freshly constructed game state (board contents and initial robber
tile are parameters: they come from the random shuffles). -/
def initG (n : Nat) (board : List (List (Res × Option Nat))) (robberFlat : Nat) : GState :=
  let seq := mkSetupSeq n
  { n := n
    players := (List.range n).map fun i =>
      { color := playerColors.getD i "", resources := fun _ => 0, houses := [], roads := [] }
    setupSeq := seq
    seqI := 0
    phase := .setup
    diceRolled := false
    diceResult := none
    board := board
    robber := robberFlat
    currentIdx := (seq.getD 0 (0, Act.settlement)).1
    currentAct := (seq.getD 0 (0, Act.settlement)).2
    discardList := []
    discardPtr := 0
    toDiscard := 0
    discarded := 0
    robVictims := [] }

/-- Run a sequence of events, stopping at the first exception. -/
def run (s : GState) : List Ev → PyR GState
  | [] => .ok s
  | e :: es =>
    match step s e with
    | .ok s2 => run s2 es
    | .crash s2 m => .crash s2 m

/-- The game states reachable from a fresh game by completed (non-raising)
event steps. -/
inductive Reachable : GState → Prop where
  | init (n : Nat) (board : List (List (Res × Option Nat))) (robberFlat : Nat) :
      Reachable (initG n board robberFlat)
  | next {s : GState} {e : Ev} {s2 : GState} :
      Reachable s → step s e = .ok s2 → Reachable s2

end PT
namespace PTF

/-! ### The identity partition of `play_test.py`'s floating-point corners

`play_test.py` recomputes each tile's 6 corners as
`(cx + SIZE*cos(radians(60*i-30)), cy + SIZE*sin(radians(60*i-30)))` in
double precision and then compares, hashes and dict-keys the results with
plain `==`.  The 114 corner instances (flat index `t*6 + i`) carry 104
distinct double values: copies of the same geometric corner computed from
different tile centers mostly differ in their last bits.  `nodeClass`
tabulates the resulting partition — entry `(t, i)` is the flat index of
the *first* corner instance whose double pair is bit-equal to instance
`t*6 + i` — obtained by evaluating the source's expressions in IEEE double
precision exactly as written (Lean's `Float` produces the same values).
The partition refines the exact grid — bit-equal doubles approximate the
same grid point — which is checked inside claim C2: `classPos` of every
table entry equals the exact corner position. -/

/-- The identity class (flat index of the first bit-equal corner instance)
of each corner instance, per tile. -/
def nodeClass : List (List Nat) :=
  [ [0, 1, 2, 3, 4, 5],
    [6, 7, 8, 9, 10, 11],
    [12, 13, 14, 15, 16, 17],
    [2, 19, 20, 21, 22, 3],
    [24, 25, 26, 27, 28, 29],
    [14, 31, 32, 33, 34, 35],
    [36, 37, 38, 31, 40, 13],
    [42, 43, 44, 45, 46, 47],
    [48, 49, 50, 51, 52, 53],
    [54, 55, 56, 57, 58, 59],
    [60, 61, 62, 63, 64, 65],
    [66, 67, 68, 69, 70, 71],
    [50, 73, 74, 75, 44, 77],
    [78, 79, 80, 81, 82, 83],
    [84, 85, 86, 87, 88, 89],
    [90, 91, 92, 85, 94, 95],
    [96, 97, 98, 99, 74, 101],
    [102, 103, 104, 105, 106, 107],
    [92, 109, 110, 111, 112, 113] ]

/-- Per tile, the 6 boundary edges as the program canonicalizes them
(`tuple(sorted([verts[i], verts[(i+1)%6]]))` on the double pairs, the sort
comparing the doubles themselves), each endpoint named by its identity
class. -/
def tileEdgesF : List (List (Nat × Nat)) :=
  [ [(0, 1), (2, 1), (3, 2), (4, 3), (4, 5), (5, 0)],
    [(6, 7), (8, 7), (9, 8), (9, 10), (10, 11), (11, 6)],
    [(12, 13), (14, 13), (15, 14), (15, 16), (16, 17), (17, 12)],
    [(2, 19), (20, 19), (21, 20), (21, 22), (22, 3), (3, 2)],
    [(24, 25), (26, 25), (27, 26), (27, 28), (28, 29), (29, 24)],
    [(14, 31), (32, 31), (33, 32), (33, 34), (34, 35), (35, 14)],
    [(36, 37), (38, 37), (31, 38), (31, 40), (40, 13), (13, 36)],
    [(42, 43), (44, 43), (45, 44), (46, 45), (46, 47), (47, 42)],
    [(48, 49), (50, 49), (51, 50), (52, 51), (52, 53), (53, 48)],
    [(54, 55), (56, 55), (57, 56), (57, 58), (58, 59), (59, 54)],
    [(60, 61), (62, 61), (63, 62), (63, 64), (64, 65), (65, 60)],
    [(66, 67), (68, 67), (69, 68), (69, 70), (70, 71), (71, 66)],
    [(50, 73), (74, 73), (75, 74), (75, 44), (44, 77), (77, 50)],
    [(78, 79), (80, 79), (81, 80), (81, 82), (82, 83), (83, 78)],
    [(84, 85), (86, 85), (87, 86), (87, 88), (88, 89), (89, 84)],
    [(90, 91), (92, 91), (85, 92), (85, 94), (94, 95), (95, 90)],
    [(96, 97), (98, 97), (99, 98), (74, 99), (74, 101), (101, 96)],
    [(102, 103), (104, 103), (105, 104), (105, 106), (106, 107), (107, 102)],
    [(92, 109), (110, 109), (111, 110), (111, 112), (112, 113), (113, 92)] ]

/-- First-occurrence deduplication: the key order of a Python `dict` (and
the member set of a Python `set`, whose iteration order is hash-dependent;
only membership is used below). -/
def dedupKeys {α : Type} [DecidableEq α] (l : List α) : List α :=
  l.foldl (fun acc x => if acc.contains x then acc else acc ++ [x]) []

/-- `self.valid_nodes` as the program holds it: one entry per distinct
double value — 104 of them. -/
def validNodesF : List Nat := dedupKeys (nodeClass.foldr (· ++ ·) [])

/-- `self.valid_edges` as the program holds it: the `edge_count` dict keys
— 113 of them. -/
def validEdgesF : List (Nat × Nat) := dedupKeys (tileEdgesF.foldr (· ++ ·) [])

/-- The exact grid position a class approximates: the position of its
first corner instance. -/
def classPos (cid : Nat) : Point :=
  (PT.tileNodes.getD (cid / 6) []).getD (cid % 6) (0, 0)

/-- `divmod(hid-1, 12)` house decoding, resolving to the identity class of
the double pair the house's own tile computed
(`self.tile_nodes[tid][corner]`). -/
def nodeOfHidF (hid : Nat) : Option Nat :=
  let tid := (hid - 1) / 12
  let loc := (hid - 1) % 12
  let cor := if loc < 6 then loc else loc - 6
  (nodeClass.get? tid).bind fun verts => verts.get? cor

/-- Whether some player's house occupies the corner instance with identity
class `x` (the source compares `self.tile_nodes[tid][corner] == node`:
bit-equality of the doubles). -/
def occupiedF (s : PT.GState) (x : Nat) : Bool :=
  s.players.any fun p => p.houses.any fun hid => nodeOfHidF hid == some x

/-- The endpoint of `e` other than `node`. -/
def otherEndF (e : Nat × Nat) (node : Nat) : Nat :=
  if e.1 = node then e.2 else e.1

/-- `is_valid_settlement(node)` over the program's identities: the hovered
class is unoccupied and no neighbour via a registered (bit-equal) edge is
occupied.  A house recorded on a *different* bit-pattern copy of the same
or an adjacent corner is invisible to this test. -/
def isValidSettlementF (s : PT.GState) (node : Nat) : Bool :=
  !(occupiedF s node) &&
    validEdgesF.all fun e =>
      if node = e.1 ∨ node = e.2 then !(occupiedF s (otherEndF e node)) else true

/-- `house_id(node)` over the program's identities: first tile whose
corner classes contain the hovered class. -/
def houseIdF (node : Nat) : Option Nat :=
  nodeClass.enum.findSome? fun tv =>
    if tv.2.contains node then
      some (tv.1 * 12 + (tv.2.findIdx (fun v => v == node) + 1))
    else none

/-- `edge_id(edge)` over the program's identities. -/
def edgeIdF (e : Nat × Nat) : Option Nat :=
  tileEdgesF.enum.findSome? fun te =>
    (te.2.enum.findSome? fun ie =>
      if ie.2 == e then some (te.1 * 6 + (ie.1 + 1)) else none)

/-- The setup settlement placement, as `PT.setupSettle` with house id and
validity resolved over the program's identities.  The initial-grant
proximity test compares the hovered corner against tile centers with
`hypot < SIZE*1.1`, whose outcome on the doubles agrees with the exact
comparison at `classPos` for every class (the thresholds are far from the
attainable distances). -/
def setupSettleF (s : PT.GState) (node : Nat) : PyR PT.GState :=
  let hid := (houseIdF node).getD 0
  let s1 := PT.modifyCurrent s fun p => { p with houses := p.houses ++ [hid] }
  let afterGrant :=
    if s1.n ≤ s1.seqI then PT.grantLoop (classPos node) s1 (List.range 19)
    else .ok s1
  afterGrant.bind fun s2 => .ok (PT.nextSetup s2)

/-- The setup-phase click handler over the program's identities (mirrors
`PT.setupClick`: a settlement click is validated with
`is_valid_settlement`, a road click is accepted with no validity check). -/
def setupClickF (s : PT.GState) (hn : Option Nat) (he : Option (Nat × Nat)) :
    PyR PT.GState :=
  if s.phase = PT.Phase.setup then
    match hn with
    | some node =>
      if s.currentAct == PT.Act.settlement && validNodesF.contains node
          && isValidSettlementF s node then
        setupSettleF s node
      else
        match he with
        | some e =>
          if s.currentAct == PT.Act.road && validEdgesF.contains e then
            .ok (PT.nextSetup (PT.modifyCurrent s fun p =>
              { p with roads := p.roads ++ [(edgeIdF e).getD 0] }))
          else .ok s
        | none => .ok s
    | none =>
      match he with
      | some e =>
        if s.currentAct == PT.Act.road && validEdgesF.contains e then
          .ok (PT.nextSetup (PT.modifyCurrent s fun p =>
            { p with roads := p.roads ++ [(edgeIdF e).getD 0] }))
        else .ok s
      | none => .ok s
  else .ok s

/-- Run a sequence of setup clicks (hover targets given as identity
classes), stopping at the first exception. -/
def runSetupF (s : PT.GState) :
    List (Option Nat × Option (Nat × Nat)) → PyR PT.GState
  | [] => .ok s
  | c :: cs =>
    match setupClickF s c.1 c.2 with
    | .ok s2 => runSetupF s2 cs
    | .crash s2 m => .crash s2 m

end PTF
namespace ST

/-! ## `src/structure.py` -/

/-- Resource codes: `DESERT=0, MOUNTAIN=1, FOREST=2, PASTURE=3, FIELD=4,
BRICK=5`. -/
def DESERT : Int := 0
def MOUNTAIN : Int := 1
def FOREST : Int := 2
def PASTURE : Int := 3
def FIELD : Int := 4
def BRICK : Int := 5

/-- The edge dictionary: keyed by the canonicalized coordinate pair,
valued by a color; first match wins on lookup (dict semantics). -/
abbrev EdgeMap := List (Edge × Int)

/-- `add_edge(point_A, point_B, color)`: store under
`tuple(sorted([point_A, point_B]))`. -/
def addEdge (m : EdgeMap) (a b : Point) (c : Int) : EdgeMap :=
  (sortPair a b, c) :: m

/-- `has_edge(point_A, point_B)`: `self.edges.get(ordered_edge, False)`,
with `False` modelled as `none`. -/
def hasEdge (m : EdgeMap) (a b : Point) : Option Int :=
  m.lookup (sortPair a b)

/-- Apply a list of `add_edge` calls to the empty dictionary. -/
def buildEdges (ops : List (Point × Point × Int)) : EdgeMap :=
  ops.foldl (fun m op => addEdge m op.1 op.2.1 op.2.2) []

/-- The node-grid row sizes `[3,4,4,5,5,6,6,5,5,4,4,3]`. -/
def rowSizes : List Nat := [3, 4, 4, 5, 5, 6, 6, 5, 5, 4, 4, 3]

/-- The manual tile → 6 corner `(row, col)` map (`_map_tiles_to_node_indices`). -/
def tileToNodes : List (List (Nat × Nat)) :=
  [ [(0,0),(1,0),(1,1),(2,0),(2,1),(3,1)],
    [(0,1),(1,1),(1,2),(2,1),(2,2),(3,2)],
    [(0,2),(1,2),(1,3),(2,2),(2,3),(3,3)],
    [(2,0),(3,0),(3,1),(4,0),(4,1),(5,1)],
    [(2,1),(3,1),(3,2),(4,1),(4,2),(5,2)],
    [(2,2),(3,2),(3,3),(4,2),(4,3),(5,3)],
    [(2,3),(3,3),(3,4),(4,3),(4,4),(5,4)],
    [(4,0),(5,0),(5,1),(6,0),(6,1),(7,0)],
    [(4,1),(5,1),(5,2),(6,1),(6,2),(7,1)],
    [(4,2),(5,2),(5,3),(6,2),(6,3),(7,2)],
    [(4,3),(5,3),(5,4),(6,3),(6,4),(7,3)],
    [(4,4),(5,4),(5,5),(6,4),(6,5),(7,4)],
    [(6,1),(7,0),(7,1),(8,0),(8,1),(9,0)],
    [(6,2),(7,1),(7,2),(8,1),(8,2),(9,1)],
    [(6,3),(7,2),(7,3),(8,2),(8,3),(9,2)],
    [(6,4),(7,3),(7,4),(8,3),(8,4),(9,3)],
    [(8,1),(9,0),(9,1),(10,0),(10,1),(11,0)],
    [(8,2),(9,1),(9,2),(10,1),(10,2),(11,1)],
    [(8,3),(9,2),(9,3),(10,2),(10,3),(11,2)] ]

/-- The numpy-backed state: `tiles` rows are `(column 0, column 1)` pairs,
`nodes[r][c] = (player, count)`, `cards` is `num_players × 6`. -/
structure Game where
  tiles : List (Int × Int)
  nodes : List (List (Int × Int))
  cards : List (List Int)
  robber : Int
  numberToTiles : List (Int × List Nat)
deriving DecidableEq, Repr

/-- Append `idx` to the list stored under `key`
(`setdefault(dice, []).append(idx)`). -/
def upsert (m : List (Int × List Nat)) (key : Int) (idx : Nat) : List (Int × List Nat) :=
  if m.any (fun kv => kv.1 == key) then
    m.map fun kv => if kv.1 == key then (kv.1, kv.2 ++ [idx]) else kv
  else m ++ [(key, [idx])]

/-- `_index_tiles_by_number`: builds `dice → [tile_idx, ...]` — but the
loop unpacks `(dice, res)` from a tile row whose column 0 actually holds
the **resource code** written by `initialize_random_board`, so the keys
are resource codes, not dice numbers. -/
def indexTiles (tiles : List (Int × Int)) : List (Int × List Nat) :=
  tiles.enum.foldl (fun m it => upsert m it.2.1 it.1) []

/-- `distribute_resources(dice_roll)`: for each tile under the rolled key,
read `resource_type = tiles[t, 1]` (actually the number token) and credit
`cards[player-1, resource_type]`; a `resource_type` outside `0..5` raises
`IndexError` on the 6-column `cards` array. -/
def creditNodes (resTy : Int) (tidNodes : List (Nat × Nat)) (g : Game) : PyR Game :=
  match tidNodes with
  | [] => .ok g
  | rc :: rest =>
    let pc := (g.nodes.getD rc.1 []).getD rc.2 (0, 0)
    if pc.1 ≠ 0 then
      if 0 ≤ resTy ∧ resTy < 6 then
        let pi := (pc.1 - 1).toNat
        let row := g.cards.getD pi []
        let g2 := { g with cards := g.cards.set pi (row.set resTy.toNat (row.getD resTy.toNat 0 + pc.2)) }
        creditNodes resTy rest g2
      else .crash g "IndexError: index out of bounds for axis 1"
    else creditNodes resTy rest g

/-- The tile loop of `distribute_resources`. -/
def distributeLoop (g : Game) : List Nat → PyR Game
  | [] => .ok g
  | t :: rest =>
    let resTy := (g.tiles.getD t (0, 0)).2
    (creditNodes resTy (tileToNodes.getD t []) g).bind fun g2 => distributeLoop g2 rest

/-- `distribute_resources(dice_roll)`. -/
def distribute (g : Game) (diceRoll : Int) : PyR Game :=
  distributeLoop g (((g.numberToTiles.lookup diceRoll).getD []))

/-- `initialize_random_board` applied to the (shuffled) resource and
number lists: write the resource code into column 0; on the desert set the
robber and skip, else write `numbers[i - desert]` into column 1. -/
def initTiles (resources numbers : List Int) : (List (Int × Int)) × Int :=
  let st := (List.range 19).foldl
    (fun (acc : List (Int × Int) × Int × Nat) i =>
      let tiles := acc.1
      let rob := acc.2.1
      let des := acc.2.2
      let res := resources.getD i 0
      if res = DESERT then
        (tiles.set i (res, (tiles.getD i (0, 0)).2), (i : Int), 1)
      else
        (tiles.set i (res, numbers.getD (i - des) 0), rob, des))
    (List.replicate 19 ((0 : Int), (0 : Int)), 0, 0)
  (st.1, st.2.1)

end ST

namespace DP

/-! ## `displayer.py` -/

/-- A tile `(res, num, pos)` as appended by `initialize_board`. -/
abbrev Tile3 := Res × Option Nat × Point

/-- The spiral visiting order. -/
def spiralOrder : List Nat := [0,1,2,7,12,17,18,13,8,3,4,9,14,16,15,10,5,6,11]

/-- The assignment loop of `initialize_board`: `resources.pop()` takes
from the end (so the resource list is consumed in reverse); on the desert
the code appends a number-less tile and executes `numbers.insert(6, None)`
— mutating the very pool later tiles index into. -/
def initBoardLoop : List Res → List (Option Nat) → Nat → List Nat → List Tile3 → List Tile3
  | _, _, _, [], acc => acc
  | [], _, _, _ :: _, acc => acc
  | r :: rtl, nums, numberIdx, idx :: rest, acc =>
    let pos := PT.centersFlat.getD idx (0, 0)
    if r = Res.desert then
      initBoardLoop rtl (nums.insertIdx 6 none) numberIdx rest (acc ++ [(r, none, pos)])
    else
      initBoardLoop rtl nums (numberIdx + 1) rest (acc ++ [(r, nums.getD numberIdx none, pos)])

/-- `initialize_board` on given (shuffled) resource and number pools. -/
def initBoard (resources : List Res) (numbers : List Nat) : List Tile3 :=
  initBoardLoop resources.reverse (numbers.map some) 0 spiralOrder []

/-- A `displayer.py` player: resources plus villages `(x, y, level)`. -/
structure VPlayer where
  resources : Res → Int
  villages : List (Point × Nat)

/-- Add `v` of kind `k`. -/
def addResV (p : VPlayer) (k : Res) (v : Int) : VPlayer :=
  { p with resources := fun k2 => if k2 = k then p.resources k2 + v else p.resources k2 }

/-- `remove_resources(resources)`: first check every `(res, count)` pair of
the cost against the balance and bail out with `False` on any shortfall;
only then deduct them all and return `True`. -/
def removeResources (p : VPlayer) (cost : List (Res × Int)) : Bool × VPlayer :=
  if cost.all (fun rc => decide (rc.2 ≤ p.resources rc.1)) then
    (true, cost.foldl (fun q rc => addResV q rc.1 (-rc.2)) p)
  else (false, p)

/-- `get_adjacent_tiles(x, y)`: tiles whose center is within `SIZE*1.1`. -/
def getAdjacentTiles (tiles : List Tile3) (pt : Point) : List Tile3 :=
  tiles.filter fun t => sqDist t.2.2 pt ≤ 4

/-- `distribute_initial_resources`: called once when setup ends; grants one
unit of each adjacent non-desert resource for **every** village of every
player (both setup placements alike). -/
def distributeInitialResources (tiles : List Tile3) (players : List VPlayer) : List VPlayer :=
  players.map fun pl =>
    pl.villages.foldl
      (fun p v =>
        (getAdjacentTiles tiles v.1).foldl
          (fun q t => if t.1 ≠ Res.desert then addResV q t.1 1 else q) p)
      pl

end DP
namespace PT

/-- Invariant: every resource count of every player is non-negative. -/
def NonNeg (s : GState) : Prop := ∀ p ∈ s.players, ∀ k, 0 ≤ p.resources k

/-- The total number of resource cards across all players. -/
def totalAll (s : GState) : Int := (s.players.map totalCards).sum

end PT

/-! ## Concrete scenario states -/

/-- A fixed board-content assignment (its contents are irrelevant to the
placement and phase logic exercised on it). -/
def boardX : List (List (Res × Option Nat)) :=
  ([3, 4, 5, 4, 3] : List Nat).map fun k => List.replicate k (Res.wood, some 8)

/-- A fresh 4-player `play_test` game on `boardX`. -/
def s0 : PT.GState := PT.initG 4 boardX 0

/-- Four completed setup events (players 0 and 1 place settlement + road),
then player 2's **first** settlement click, whose initial-grant branch
fires because `seq_i = 4 >= n`. -/
def evC5 : List PT.Ev :=
  [ .setupClick (some ((-1), (-7))) none,
    .setupClick none (some (((-1), (-7)), ((-1), (-5)))),
    .setupClick (some ((3), (-7))) none,
    .setupClick none (some (((3), (-7)), ((3), (-5)))),
    .setupClick (some ((3), (5))) none ]

/-- The first four events of `evC5`. -/
def evC5pre : List PT.Ev := evC5.take 4

/-- Player 0 places a settlement at `(-1,-7)` (a corner of tile 0), then
clicks the edge `((3,5),(3,7))` of tile 18 — which touches neither
endpoint of any edge at the settlement. -/
def evC6 : List PT.Ev :=
  [ .setupClick (some ((-1), (-7))) none,
    .setupClick none (some (((3), (5)), ((3), (7)))) ]

/-- The C2 setup run, with hover targets given as the program's identity
classes as delivered by the real hover scan: with the mouse over the
corner at exact position `(-1,-7)` (respectively `(-1,-5)`) the first
set-order member of `valid_nodes` within the detection radius under
CPython's float hashing is class 10 (respectively class 29).  Player 0
settles on class 10, places the setup road on the touching edge `(9, 10)`,
then player 1 settles on class 29 — the geometrically adjacent corner. -/
def hovC2 : List (Option Nat × Option (Nat × Nat)) :=
  [(some 10, none), (none, some (9, 10)), (some 29, none)]

/-- The state produced by the C2 setup run from a fresh 4-player game. -/
def c2run : PyR PT.GState := PTF.runSetupF s0 hovC2

/-- A possible outcome of `rd.shuffle(resources)` in `displayer.py`
(4 wood, 4 sheep, 4 wheat, 3 clay, 3 rock, 1 desert) with the desert in
the position popped first. -/
def resD : List Res :=
  [.wood, .wood, .wood, .wood, .sheep, .sheep, .sheep, .sheep,
   .wheat, .wheat, .wheat, .wheat, .clay, .clay, .clay, .rock, .rock, .rock, .desert]

/-- The number-token pool in its unshuffled order (a possible shuffle). -/
def numsStd : List Nat := [2, 3, 3, 4, 4, 5, 5, 6, 6, 8, 8, 9, 9, 10, 10, 11, 11, 12]

/-- A possible outcome of `np.random.shuffle(resources)` in `structure.py`
(the unshuffled pool: `[DESERT] + [MOUNTAIN, BRICK]*3 + [FOREST, PASTURE,
FIELD]*4`). -/
def resSTd : List Int :=
  [ST.DESERT, ST.MOUNTAIN, ST.BRICK, ST.MOUNTAIN, ST.BRICK, ST.MOUNTAIN, ST.BRICK,
   ST.FOREST, ST.PASTURE, ST.FIELD, ST.FOREST, ST.PASTURE, ST.FIELD,
   ST.FOREST, ST.PASTURE, ST.FIELD, ST.FOREST, ST.PASTURE, ST.FIELD]

/-- The `structure.py` number pool, unshuffled. -/
def numsSTd : List Int := [2, 3, 3, 4, 4, 5, 5, 6, 6, 8, 8, 9, 9, 10, 10, 11, 11, 12]

/-- A node grid with a level-1 settlement of player 1 at `(4, 3)` — a
corner of tile 10 by the manual map. -/
def nodesX : List (List (Int × Int)) :=
  let base := ST.rowSizes.map fun k => List.replicate k ((0 : Int), (0 : Int))
  base.set 4 ((base.getD 4 []).set 3 (1, 1))

/-- The `structure.py` game after `initialize_random_board` on `resSTd` /
`numsSTd`, with `nodesX` and `_index_tiles_by_number` applied. -/
def stX : ST.Game :=
  let ti := ST.initTiles resSTd numsSTd
  { tiles := ti.1, nodes := nodesX,
    cards := List.replicate 4 (List.replicate 6 0),
    robber := ti.2, numberToTiles := ST.indexTiles ti.1 }

/-- A player holding 9 sheep (more than 7 cards). -/
def pHeavy : PT.Player :=
  { PT.defPlayer with resources := fun k => if k = Res.sheep then 9 else 0 }

/-- A regular-phase state in which player 1 holds 9 cards. -/
def c4s : PT.GState :=
  { s0 with phase := .regular,
            players := [PT.defPlayer, pHeavy, PT.defPlayer, PT.defPlayer] }

/-- A rob-choose state: player 0 robs, player 1 (9 sheep) is the victim. -/
def s8 : PT.GState :=
  { s0 with phase := .robChoose, currentIdx := 0, robVictims := [1],
            players := [PT.defPlayer, pHeavy, PT.defPlayer, PT.defPlayer] }

/-- Two tiles for the `displayer.py` initial grant: a wood tile at the
origin and a desert tile far away. -/
def tiles5 : List DP.Tile3 :=
  [(Res.wood, some 8, ((0 : Int), (0 : Int))),
   (Res.desert, none, ((100 : Int), (100 : Int)))]

/-- A player whose first village `(1,1)` is adjacent to the wood tile and
whose second village `(101,101)` is adjacent only to the desert tile. -/
def pl5 : DP.VPlayer :=
  { resources := fun _ => 0,
    villages := [(((1 : Int), (1 : Int)), 1), (((101 : Int), (101 : Int)), 1)] }

/-- A `displayer.py` player with a single wood card. -/
def dpPoor : DP.VPlayer :=
  { resources := fun k => if k = Res.wood then 1 else 0, villages := [] }

/-- The road cost (1 clay + 1 wood). -/
def costRoad : List (Res × Int) := [(Res.clay, 1), (Res.wood, 1)]

/-- The total amount of kind `k` demanded by a cost list. -/
def costSum (cost : List (Res × Int)) (k : Res) : Int :=
  ((cost.filter fun rc => rc.1 == k).map fun rc => rc.2).sum

/-! ## Helper lemmas -/

section Helpers

/-- `getD` after `set` at the same (in-range) index. -/
theorem getD_set_self {α : Type} (l : List α) (i : Nat) (a d : α) (h : i < l.length) :
    (l.set i a).getD i d = a := by
  induction l generalizing i with
  | nil => simp at h
  | cons hd tl ih =>
    cases i with
    | zero => simp
    | succ j => simpa using ih j (by simpa using h)

/-- `getD` after `set` at a different index. -/
theorem getD_set_ne {α : Type} (l : List α) (i j : Nat) (a d : α) (h : i ≠ j) :
    (l.set j a).getD i d = l.getD i d := by
  induction l generalizing i j with
  | nil => simp
  | cons hd tl ih =>
    cases j with
    | zero => cases i with
      | zero => exact absurd rfl h
      | succ m => simp
    | succ m => cases i with
      | zero => simp
      | succ m2 => simpa using ih m2 m (by omega)

/-- A `getD` value is a member of the list or the default. -/
theorem getD_mem_or {α : Type} (l : List α) (i : Nat) (d : α) :
    l.getD i d ∈ l ∨ l.getD i d = d := by
  induction l generalizing i with
  | nil => simp
  | cons hd tl ih =>
    cases i with
    | zero => simp
    | succ j =>
      rw [List.getD_cons_succ]
      rcases ih j with h | h
      · exact Or.inl (List.mem_cons_of_mem _ h)
      · exact Or.inr h

/-- Summing a projection over a list after an in-range `set`. -/
theorem sum_map_set (l : List PT.Player) (j : Nat) (a : PT.Player) (h : j < l.length) :
    ((l.set j a).map PT.totalCards).sum
      = (l.map PT.totalCards).sum + PT.totalCards a
          - PT.totalCards (l.getD j PT.defPlayer) := by
  induction l generalizing j with
  | nil => simp at h
  | cons hd tl ih =>
    cases j with
    | zero => simp; ring
    | succ m =>
      have hrec := ih m (by simpa using h)
      simp only [List.set_cons_succ, List.map_cons, List.sum_cons,
        List.getD_cons_succ, hrec]
      ring

/-- `pleb` is total. -/
theorem pleb_total (p q : Point) : pleb p q = true ∨ pleb q p = true := by
  simp only [pleb, Bool.or_eq_true, Bool.and_eq_true, decide_eq_true_eq, beq_iff_eq]
  omega

/-- Sorting a pair of points is symmetric. -/
theorem sortPair_comm (p q : Point) : sortPair p q = sortPair q p := by
  by_cases h1 : pleb p q = true <;> by_cases h2 : pleb q p = true
  · have e : p = q := by
      simp only [pleb, Bool.or_eq_true, Bool.and_eq_true, decide_eq_true_eq,
        beq_iff_eq] at h1 h2
      refine Prod.ext ?_ ?_ <;> omega
    rw [e]
  · rw [Bool.not_eq_true] at h2
    simp [sortPair, h1, h2]
  · rw [Bool.not_eq_true] at h1
    simp [sortPair, h1, h2]
  · rcases pleb_total p q with h | h
    · exact absurd h h1
    · exact absurd h h2

/-- The canonical form determines the unordered pair. -/
theorem sortPair_eq_inv {x y a b : Point} (h : sortPair x y = sortPair a b) :
    (x = a ∧ y = b) ∨ (x = b ∧ y = a) := by
  unfold sortPair at h
  rcases hxy : pleb x y with _ | _ <;> rcases hab : pleb a b with _ | _ <;>
    rw [hxy, hab] at h <;> simp at h
  · exact Or.inl ⟨h.2, h.1⟩
  · exact Or.inr ⟨h.2, h.1⟩
  · exact Or.inr ⟨h.1, h.2⟩
  · exact Or.inl ⟨h.1, h.2⟩

end Helpers

namespace PT

theorem nonNeg_getD {s : GState} (h : NonNeg s) (i : Nat) (k : Res) :
    0 ≤ (s.players.getD i defPlayer).resources k := by
  rcases getD_mem_or s.players i defPlayer with hm | hd
  · exact h _ hm k
  · rw [hd]; exact le_refl 0

theorem nonNeg_modifyAt {s : GState} (i : Nat) (f : Player → Player)
    (hres : ∀ k, 0 ≤ (f (s.players.getD i defPlayer)).resources k) :
    NonNeg s → NonNeg (modifyAt s i f) := by
  intro h p hp k
  rcases List.mem_or_eq_of_mem_set hp with hm | he
  · exact h p hm k
  · rw [he]; exact hres k

theorem nonNeg_players_eq {s t : GState} (h : t.players = s.players) :
    NonNeg s → NonNeg t := by
  intro hn p hp k; exact hn p (h ▸ hp) k

theorem addRes_resources (p : Player) (k k2 : Res) (v : Int) :
    (addRes p k v).resources k2 = p.resources k2 + (if k2 = k then v else 0) := by
  by_cases h : k2 = k <;> simp [addRes, h]

theorem players_nextSetup (s : GState) : (nextSetup s).players = s.players := by
  unfold nextSetup
  dsimp only
  split <;> rfl

theorem players_nextPlayer (s : GState) : (nextPlayer s).players = s.players := rfl

end PT

namespace PT

theorem nonNeg_init (n : Nat) (board : List (List (Res × Option Nat)))
    (rf : Nat) : NonNeg (initG n board rf) := by
  intro p hp k
  simp only [initG] at hp
  rw [List.mem_map] at hp
  obtain ⟨i, _, rfl⟩ := hp
  exact le_refl 0

theorem grantLoop_nonNeg (node : Point) :
    ∀ (flats : List Nat) (s : GState),
      NonNeg s → NonNeg ((grantLoop node s flats).state) := by
  intro flats
  induction flats with
  | nil => intro s h; exact h
  | cons flat rest ih =>
    intro s h
    unfold grantLoop
    dsimp only
    split
    · exact h
    · split
      · split
        · exact h
        · apply ih
          split
          · refine nonNeg_modifyAt _ _ ?_ h
            intro k
            rw [addRes_resources]
            have h0 := nonNeg_getD h s.currentIdx k
            split <;> omega
          · exact h
      · exact ih s h

theorem nonNeg_bindNextSetup {r : PyR GState} (h : NonNeg r.state) :
    NonNeg ((r.bind fun s2 => .ok (nextSetup s2)).state) := by
  cases r with
  | ok s2 => exact nonNeg_players_eq (players_nextSetup s2) h
  | crash s2 m => exact h

theorem nonNeg_setupSettle {s : GState} {node : Point}
    (hn : NonNeg s) : NonNeg ((setupSettle s node).state) := by
  unfold setupSettle
  dsimp only
  apply nonNeg_bindNextSetup
  have h1 : NonNeg (modifyCurrent s fun p =>
      { p with houses := p.houses ++ [(houseId node).getD 0] }) := by
    refine nonNeg_modifyAt _ _ ?_ hn
    intro k
    exact nonNeg_getD hn s.currentIdx k
  split
  · exact grantLoop_nonNeg node (List.range 19) _ h1
  · exact h1

end PT

namespace PT

theorem handleDice_players (s : GState) (d1 d2 : Nat) :
    ((handleDice s d1 d2).state).players = s.players := by
  unfold handleDice
  dsimp only
  split
  · split <;> rfl
  · split <;> rfl

theorem moveRobber_state (s : GState) (node : Point) :
    (moveRobber s node).state = s := by
  unfold moveRobber; split <;> rfl

end PT

namespace PT

theorem mem_poolOf {p : Player} {k : Res} (h : k ∈ poolOf p) :
    1 ≤ p.resources k := by
  unfold poolOf at h
  rw [List.mem_flatten] at h
  obtain ⟨l, hl, hkl⟩ := h
  rw [List.mem_map] at hl
  obtain ⟨k2, _, rfl⟩ := hl
  rw [List.mem_replicate] at hkl
  obtain ⟨hne, rfl⟩ := hkl
  omega

theorem getD_mem_of_nonempty {l : List Res} (h : ¬l.isEmpty = true)
    (i : Nat) (d : Res) : l.getD (i % l.length) d ∈ l := by
  have hne : l ≠ [] := by
    intro he; rw [he] at h; exact h rfl
  have hlen : i % l.length < l.length := Nat.mod_lt _ (List.length_pos.mpr hne)
  rw [List.getD_eq_getElem l d hlen]
  exact List.getElem_mem hlen

theorem nonNeg_setupClick (s : GState) (hn : Option Point) (he2 : Option Edge)
    (h : NonNeg s) : NonNeg ((setupClick s hn he2).state) := by
  unfold setupClick
  split
  · split
    · next node =>
      split
      · exact nonNeg_setupSettle h
      · split
        · next e =>
          split
          · refine nonNeg_players_eq (players_nextSetup _) ?_
            refine nonNeg_modifyAt _ _ ?_ h
            intro k
            exact nonNeg_getD h s.currentIdx k
          · exact h
        · exact h
    · split
      · next e =>
        split
        · refine nonNeg_players_eq (players_nextSetup _) ?_
          refine nonNeg_modifyAt _ _ ?_ h
          intro k
          exact nonNeg_getD h s.currentIdx k
        · exact h
      · exact h
  · exact h

theorem nonNeg_handleDice (s : GState) (d1 d2 : Nat) (h : NonNeg s) :
    NonNeg ((handleDice s d1 d2).state) :=
  nonNeg_players_eq (handleDice_players s d1 d2) h

theorem nonNeg_buildSettle (s : GState) (node : Point) (h : NonNeg s) :
    NonNeg ((buildSettle s node).state) := by
  unfold buildSettle
  split
  case isTrue hc =>
    dsimp only [PyR.state]
    rw [Bool.and_eq_true, Bool.and_eq_true, Bool.and_eq_true] at hc
    have hcb : canBuildSettlement s = true := hc.1.2
    unfold canBuildSettlement at hcb
    have hb : ∀ r ∈ [Res.sheep, Res.wheat, Res.clay, Res.wood],
        1 ≤ (currentP s).resources r := by
      intro r hr
      have := List.all_eq_true.mp hcb r hr
      simpa using this
    have hs := hb Res.sheep (by simp)
    have hw := hb Res.wheat (by simp)
    have hcl := hb Res.clay (by simp)
    have hwo := hb Res.wood (by simp)
    unfold currentP at hs hw hcl hwo
    have h1 : NonNeg (modifyCurrent s fun p =>
        [Res.sheep, Res.wheat, Res.clay, Res.wood].foldl
          (fun q r2 => addRes q r2 (-1)) p) := by
      refine nonNeg_modifyAt _ _ ?_ h
      intro k
      have h0 := nonNeg_getD h s.currentIdx k
      cases k <;>
        simp only [List.foldl_cons, List.foldl_nil] <;>
        simp [addRes] at h0 hs hw hcl hwo ⊢ <;> omega
    refine nonNeg_modifyAt _ _ ?_ h1
    intro k
    exact nonNeg_getD h1 _ k
  case isFalse => exact h

theorem nonNeg_buildRoad (s : GState) (e : Edge) (h : NonNeg s) :
    NonNeg ((buildRoad s e).state) := by
  unfold buildRoad
  dsimp only
  split
  case isTrue hc =>
    rw [Bool.and_eq_true, Bool.and_eq_true] at hc
    have hcb : canBuildRoad s = true := hc.2
    unfold canBuildRoad at hcb
    rw [Bool.and_eq_true, decide_eq_true_eq, decide_eq_true_eq] at hcb
    unfold currentP at hcb
    split
    · dsimp only [PyR.state]
      refine nonNeg_modifyAt _ _ ?_ h
      intro k
      have h0 := nonNeg_getD h s.currentIdx k
      have h2 : (({ (addRes (addRes (s.players.getD s.currentIdx defPlayer)
          Res.clay (-1)) Res.wood (-1)) with
            roads := (s.players.getD s.currentIdx defPlayer).roads
              ++ [(edgeId e).getD 0] } : Player)).resources k
          = (addRes (addRes (s.players.getD s.currentIdx defPlayer)
              Res.clay (-1)) Res.wood (-1)).resources k := rfl
      rw [h2]
      cases k <;> simp [addRes] at h0 hcb ⊢ <;> omega
    · exact h
  case isFalse => exact h

theorem nonNeg_discardClick (s : GState) (r : Res) (h : NonNeg s) :
    NonNeg ((discardClick s r).state) := by
  unfold discardClick
  dsimp only
  split
  case isTrue hg =>
    rw [Bool.and_eq_true, decide_eq_true_eq] at hg
    have hg2 := hg.2
    unfold currentP at hg2
    have h1 : NonNeg (modifyCurrent s (addRes · r (-1))) := by
      refine nonNeg_modifyAt _ _ ?_ h
      intro k
      rw [addRes_resources]
      have h0 := nonNeg_getD h s.currentIdx k
      by_cases hk : k = r
      · subst hk
        rw [if_pos rfl]
        omega
      · rw [if_neg hk]
        omega
    split
    · split
      · exact nonNeg_players_eq rfl h1
      · exact nonNeg_players_eq rfl h1
    · exact nonNeg_players_eq rfl h1
  case isFalse => exact h

theorem nonNeg_two_modify (s : GState) (v : Nat) (k2 : Res)
    (hk : 1 ≤ (s.players.getD v defPlayer).resources k2) (h : NonNeg s) :
    NonNeg (modifyCurrent (modifyAt s v fun x => addRes x k2 (-1))
      fun x => addRes x k2 1) := by
  have h1 : NonNeg (modifyAt s v fun x => addRes x k2 (-1)) := by
    refine nonNeg_modifyAt _ _ ?_ h
    intro k
    rw [addRes_resources]
    have h0 := nonNeg_getD h v k
    split
    · next hkk => rw [hkk]; omega
    · omega
  refine nonNeg_modifyAt _ _ ?_ h1
  intro k
  rw [addRes_resources]
  have h0 := nonNeg_getD h1
    (modifyAt s v fun x => addRes x k2 (-1)).currentIdx k
  split <;> omega

theorem nonNeg_robTransfer (s : GState) (v i : Nat) (h : NonNeg s) :
    NonNeg (robTransfer s v i) := by
  unfold robTransfer
  dsimp only
  split
  case isTrue => exact nonNeg_players_eq rfl h
  case isFalse hne =>
    exact nonNeg_players_eq rfl
      (nonNeg_two_modify s v _ (mem_poolOf (getD_mem_of_nonempty hne i Res.sheep)) h)

theorem nonNeg_step (s : GState) (e : Ev) (h : NonNeg s) :
    NonNeg ((step s e).state) := by
  cases e with
  | setupClick hn he2 => exact nonNeg_setupClick s hn he2 h
  | rollDice d1 d2 =>
    simp only [step]
    split
    · exact nonNeg_handleDice s d1 d2 h
    · exact h
  | endTurn =>
    simp only [step]
    split
    · exact nonNeg_players_eq (players_nextPlayer s) h
    · exact h
  | buildSettlement node => exact nonNeg_buildSettle s node h
  | buildRoadEv e2 => exact nonNeg_buildRoad s e2 h
  | discardEv r => exact nonNeg_discardClick s r h
  | robberClick node =>
    simp only [step]
    split
    · rw [moveRobber_state]; exact h
    · exact h
  | robChooseEv v i =>
    simp only [step]
    split
    · exact nonNeg_robTransfer s v i h
    · exact h

theorem reachable_nonNeg {s : GState} (h : Reachable s) : NonNeg s := by
  induction h with
  | init n board rf => exact nonNeg_init n board rf
  | next hr hstep ih =>
    next s1 e s2 =>
    have := nonNeg_step s1 e ih
    rw [hstep] at this
    exact this

end PT

namespace ST

theorem hasEdge_addEdge_self (m : EdgeMap) (a b : Point) (c : Int) :
    hasEdge (addEdge m a b c) a b = some c := by
  unfold hasEdge addEdge
  simp [List.lookup]

theorem hasEdge_symm (m : EdgeMap) (a b : Point) :
    hasEdge m a b = hasEdge m b a := by
  unfold hasEdge
  rw [sortPair_comm]

theorem hasEdge_addEdge_other {x y a b : Point} (m : EdgeMap) (c : Int)
    (hne : ¬(x = a ∧ y = b) ∧ ¬(x = b ∧ y = a)) :
    hasEdge (addEdge m x y c) a b = hasEdge m a b := by
  unfold hasEdge addEdge
  have hns : ¬sortPair a b = sortPair x y := by
    intro he
    rcases sortPair_eq_inv he with ⟨h1, h2⟩ | ⟨h1, h2⟩
    · exact hne.1 ⟨h1.symm, h2.symm⟩
    · exact hne.2 ⟨h2.symm, h1.symm⟩
  have hbeq : (sortPair a b == sortPair x y) = false := by
    rw [beq_eq_false_iff_ne]; exact hns
  simp [List.lookup, hbeq]

theorem hasEdge_foldl_none (a b : Point) :
    ∀ (ops : List (Point × Point × Int)) (m : EdgeMap),
      (∀ op ∈ ops, ¬(op.1 = a ∧ op.2.1 = b) ∧ ¬(op.1 = b ∧ op.2.1 = a)) →
      hasEdge m a b = none →
      hasEdge (ops.foldl (fun m2 op => addEdge m2 op.1 op.2.1 op.2.2) m) a b
        = none := by
  intro ops
  induction ops with
  | nil => intro m _ hm; exact hm
  | cons op rest ih =>
    intro m hne hm
    rw [List.foldl_cons]
    refine ih _ (fun o ho => hne o (List.mem_cons_of_mem _ ho)) ?_
    rw [hasEdge_addEdge_other _ _ (hne op (List.mem_cons_self _ _))]
    exact hm

end ST

namespace DP

theorem costSum_cons (rc : Res × Int) (rest : List (Res × Int)) (k : Res) :
    costSum (rc :: rest) k = (if rc.1 = k then rc.2 else 0) + costSum rest k := by
  unfold costSum
  by_cases h : rc.1 = k
  · simp [List.filter_cons, h]
  · simp [List.filter_cons, h]

theorem foldl_deduct_resources (cost : List (Res × Int)) :
    ∀ (p : VPlayer) (k : Res),
      (cost.foldl (fun q rc => addResV q rc.1 (-rc.2)) p).resources k
        = p.resources k - costSum cost k := by
  induction cost with
  | nil => intro p k; simp [costSum]
  | cons rc rest ih =>
    intro p k
    rw [List.foldl_cons, ih, costSum_cons]
    by_cases hk : k = rc.1
    · simp [addResV, hk]
      try ring
    · have hk2 : ¬rc.1 = k := fun he => hk he.symm
      simp [addResV, hk, hk2]
      try ring

theorem removeResources_insufficient (p : VPlayer) (cost : List (Res × Int))
    (h : ∃ rc ∈ cost, p.resources rc.1 < rc.2) :
    removeResources p cost = (false, p) := by
  unfold removeResources
  rw [if_neg]
  intro hall
  obtain ⟨rc, hrc, hlt⟩ := h
  have := List.all_eq_true.mp hall rc hrc
  rw [decide_eq_true_eq] at this
  omega

theorem removeResources_sufficient (p : VPlayer) (cost : List (Res × Int))
    (h : ∀ rc ∈ cost, rc.2 ≤ p.resources rc.1) :
    removeResources p cost
      = (true, cost.foldl (fun q rc => addResV q rc.1 (-rc.2)) p) := by
  unfold removeResources
  rw [if_pos]
  rw [List.all_eq_true]
  intro rc hrc
  rw [decide_eq_true_eq]
  exact h rc hrc

end DP

namespace PT

theorem totalCards_addRes (p : Player) (k : Res) (v : Int) :
    totalCards (addRes p k v) = totalCards p + v := by
  cases k <;> simp [totalCards, addRes, resKinds] <;> ring

end PT

/-! ## Claims -/

/-- C1: the claim says `distribute(t)` credits adjacent occupied nodes of
matching, non-desert, robber-free tiles, and runs exactly once per non-7
roll.  The code disagrees: `play_test.handle_dice` raises `TypeError`
(`len(self.rows[0])` with `rows[0]` the integer `3`) on every non-7 roll
before crediting anything, leaving only the dice fields mutated; and
`structure.distribute_resources` looks tiles up by **resource code**
(columns swapped against `initialize_random_board`), so a roll of 8
distributes nothing even though tile 10 carries number token 8 and has an
occupied adjacent node `(4,3)`. -/
theorem claim_C1 :
    ((PT.handleDice s0 4 4).isCrash = true ∧
      (PT.handleDice s0 4 4).state.players = s0.players) ∧
    (ST.distribute stX 8 = PyR.ok stX ∧
      stX.tiles.getD 10 (0, 0) = (2, 8) ∧
      (stX.nodes.getD 4 []).getD 3 (0, 0) = (1, 1)) :=
  ⟨⟨rfl, rfl⟩, rfl, rfl, rfl⟩

/-- C3: the claim says every board initialization gives all 18 non-desert
tiles exactly the 18-number pool.  On the `displayer.py` variant, for the
shuffle outcome `resD`/`numsStd` (desert popped first), the 19-tile board
has exactly one **non-desert** tile with no number token, and the pool
number 12 is assigned to no tile — `numbers.insert(6, None)` corrupts the
pool the later tiles index into. -/
theorem claim_C3 :
    (DP.initBoard resD numsStd).length = 19 ∧
    ((DP.initBoard resD numsStd).filter fun t => t.1 == Res.desert).length = 1 ∧
    ((DP.initBoard resD numsStd).filter fun t =>
        !(t.1 == Res.desert) && (t.2.1 == none)).length = 1 ∧
    ((DP.initBoard resD numsStd).all fun t => !(t.2.1 == some 12)) = true :=
  ⟨rfl, rfl, rfl, rfl⟩

set_option maxRecDepth 400000 in
/-- C5: the claim says the first setup settlement grants zero resources
and only the second grants, at the moment of placement.  In `play_test`,
after four completed setup events player 2 has no settlement, yet their
**first** settlement click raises `IndexError` inside the initial-grant
loop (the grant condition is `seq_i >= n`, not `seq_i >= 2n`), with the
house appended and the setup cursor stuck; in `displayer.py`,
`distribute_initial_resources` grants for **every** village at the end of
setup — a player whose first village alone is adjacent to a wood tile ends
with 1 wood although the claim predicts 0. -/
theorem claim_C5 :
    ((PT.run s0 evC5pre).isOk = true ∧
      ((PT.run s0 evC5pre).state.players.getD 2 PT.defPlayer).houses = []) ∧
    ((PT.run s0 evC5).isCrash = true ∧
      (PT.run s0 evC5).state.seqI = 4 ∧
      ((PT.run s0 evC5).state.players.getD 2 PT.defPlayer).houses
        = [(PT.houseId ((3), (5))).getD 0]) ∧
    ((DP.distributeInitialResources tiles5 [pl5]).getD 0 pl5).resources Res.wood
      = 1 :=
  ⟨⟨rfl, rfl⟩, ⟨rfl, rfl, rfl⟩, rfl⟩

set_option maxRecDepth 400000 in
/-- C6: the claim says a setup road click on an edge not touching the
just-placed settlement is rejected with the state unchanged.  In
`play_test`, player 0 places their settlement at node `(-1,-7)` (house ID
1) and then clicks edge `((3,5),(3,7))` of tile 18 — touching neither
endpoint — yet the road (ID 109) is appended and the setup cursor
advances: the setup road branch has no validity check at all. -/
theorem claim_C6 :
    (PT.run s0 evC6).isOk = true ∧
    ((PT.run s0 evC6).state.players.getD 0 PT.defPlayer).roads = [109] ∧
    (PT.run s0 evC6).state.seqI = 2 ∧
    PT.edgeOfRid 109 = some (((3), (5)), ((3), (7))) ∧
    ((PT.run s0 evC6).state.players.getD 0 PT.defPlayer).houses = [1] ∧
    PT.nodeOfHid 1 = some ((-1), (-7)) ∧
    ((((3 : Int), (5 : Int)) : Point) ≠ ((-1), (-7)) ∧
      (((3 : Int), (7 : Int)) : Point) ≠ ((-1), (-7))) :=
  ⟨rfl, rfl, rfl, rfl, rfl, rfl, by decide⟩

/-- C7: the claim says `move_robber` relocates the robber to a legal tile
and computes the victim set.  The code instead raises `TypeError` on its
first loop iteration (`len(self.rows[0])` with `rows[0]` the integer `3`)
for every input, mutating nothing. -/
theorem claim_C7 :
    PT.moveRobber s0 ((-1), (-7))
      = PyR.crash s0 "TypeError: object of type int has no len" := rfl

/-- C10: edge storage is endpoint-order invariant: after
`add_edge(A, B, c)` both `has_edge(A, B)` and `has_edge(B, A)` return `c`;
`has_edge` is symmetric; and `has_edge` returns `False` (modelled `none`)
for any pair never added in either order. -/
theorem claim_C10 :
    (∀ (m : ST.EdgeMap) (a b : Point) (c : Int),
        ST.hasEdge (ST.addEdge m a b c) a b = some c ∧
        ST.hasEdge (ST.addEdge m a b c) b a = some c) ∧
    (∀ (m : ST.EdgeMap) (a b : Point), ST.hasEdge m a b = ST.hasEdge m b a) ∧
    (∀ (ops : List (Point × Point × Int)) (a b : Point),
        (∀ op ∈ ops, ¬(op.1 = a ∧ op.2.1 = b) ∧ ¬(op.1 = b ∧ op.2.1 = a)) →
        ST.hasEdge (ST.buildEdges ops) a b = none) := by
  refine ⟨?_, ?_, ?_⟩
  · intro m a b c
    constructor
    · exact ST.hasEdge_addEdge_self m a b c
    · rw [ST.hasEdge_symm]; exact ST.hasEdge_addEdge_self m a b c
  · intro m a b; exact ST.hasEdge_symm m a b
  · intro ops a b hne
    exact ST.hasEdge_foldl_none a b ops [] hne rfl

/-- Witness for C10 at concrete inputs. -/
theorem claim_C10_witness :
    ST.hasEdge (ST.addEdge [] (0, 0) (1, 1) 2) (1, 1) (0, 0) = some 2 ∧
    ST.hasEdge (ST.buildEdges [((0, 0), (1, 1), 2)]) (5, 5) (6, 6) = none :=
  ⟨(claim_C10.1 [] (0, 0) (1, 1) 2).2,
   claim_C10.2.2 [((0, 0), (1, 1), 2)] (5, 5) (6, 6) (by decide)⟩

set_option maxRecDepth 400000 in
/-- C2: the claim says that nodes joined by a registered edge are never
both occupied at any reachable state — `is_valid_settlement` returning
`False` whenever the node or a graph-neighbour is occupied, and every
placement refusing such a node.  **Code bug**: node identity in the source
is bit-equality of per-tile recomputed doubles, which fragments the 54
corners into 104 identities and the 72 edges into 113 (first four
conjuncts), every identity class sitting exactly on its grid corner (the
`nodeClass` refinement check, fifth conjunct).  No registered edge joins
classes 10 and 29 (last conjunct) even though their corners `(-1,-7)` and
`(-1,-5)` are adjacent — the edge between them is registered for the
deduplicated board (`sortPair ... ∈ PT.validEdges`).  Hence the setup run
`hovC2` — player 0 settles on class 10, roads, player 1 settles on the
adjacent class 29 — completes with no rejection, reaching a state with
houses 17 and 54 standing on adjacent corners: the distance rule the claim
asserts is violated at a reachable state, within the first two setup
settlements. -/
theorem claim_C2 :
    PT.validNodes.length = 54 ∧ PT.validEdges.length = 72 ∧
    PTF.validNodesF.length = 104 ∧ PTF.validEdgesF.length = 113 ∧
    ((List.range 19).all fun t => (List.range 6).all fun i =>
      PTF.classPos ((PTF.nodeClass.getD t []).getD i 0) ==
        (PT.tileNodes.getD t []).getD i (0, 0)) = true ∧
    c2run.isOk = true ∧
    (c2run.state.players.getD 0 PT.defPlayer).houses = [17] ∧
    (c2run.state.players.getD 1 PT.defPlayer).houses = [54] ∧
    PTF.nodeOfHidF 17 = some 10 ∧
    PTF.nodeOfHidF 54 = some 29 ∧
    PTF.occupiedF c2run.state 10 = true ∧
    PTF.occupiedF c2run.state 29 = true ∧
    PTF.classPos 10 = ((-1), (-7)) ∧
    PTF.classPos 29 = ((-1), (-5)) ∧
    sqDist (PTF.classPos 10) (PTF.classPos 29) = 4 ∧
    sortPair (PTF.classPos 10) (PTF.classPos 29) ∈ PT.validEdges ∧
    (PTF.validEdgesF.all fun e =>
      !((e.1 == 10 && e.2 == 29) || (e.1 == 29 && e.2 == 10))) = true := by
  refine ⟨by decide, by decide, by decide, by decide, by decide,
    rfl, rfl, rfl, rfl, rfl, rfl, rfl, rfl, rfl, by decide, by decide,
    by decide⟩

/-- C9: resource counts are non-negative at every reachable `play_test`
state (every spending operation checks the balance before deducting), and
`displayer.Player.remove_resources` is atomic: any shortfall leaves the
player unchanged and returns `False`, and a sufficient balance deducts
exactly the summed cost per kind and returns `True`. -/
theorem claim_C9 :
    (∀ s : PT.GState, PT.Reachable s → ∀ p ∈ s.players, ∀ k, 0 ≤ p.resources k) ∧
    (∀ (p : DP.VPlayer) (cost : List (Res × Int)),
        (∃ rc ∈ cost, p.resources rc.1 < rc.2) →
        DP.removeResources p cost = (false, p)) ∧
    (∀ (p : DP.VPlayer) (cost : List (Res × Int)),
        (∀ rc ∈ cost, rc.2 ≤ p.resources rc.1) →
        (DP.removeResources p cost).1 = true ∧
        ∀ k, (DP.removeResources p cost).2.resources k
          = p.resources k - costSum cost k) := by
  refine ⟨?_, ?_, ?_⟩
  · intro s hr; exact PT.reachable_nonNeg hr
  · intro p cost h; exact DP.removeResources_insufficient p cost h
  · intro p cost h
    rw [DP.removeResources_sufficient p cost h]
    exact ⟨rfl, fun k => DP.foldl_deduct_resources cost p k⟩

/-- The player-0 value of a fresh 4-player game. -/
def p0c : PT.Player :=
  { color := "red", resources := fun _ => 0, houses := [], roads := [] }

/-- Witness for C9: non-negativity for player 0 of the initial state, and
an atomic rejection of a road build with 1 wood and no clay. -/
theorem claim_C9_witness :
    (0 ≤ p0c.resources Res.wood) ∧
    DP.removeResources dpPoor costRoad = (false, dpPoor) :=
  ⟨claim_C9.1 s0 (PT.Reachable.init 4 boardX 0) p0c
      (by
        show p0c ∈ (PT.initG 4 boardX 0).players
        simp only [PT.initG]
        rw [List.mem_map]
        exact ⟨0, by simp, rfl⟩) Res.wood,
   claim_C9.2.1 dpPoor costRoad
     ⟨(Res.clay, 1), by decide, by
        show dpPoor.resources Res.clay < 1
        decide⟩⟩

/-- C4: rolling a 7 precomputes the seat-ordered list of players holding
more than 7 cards; with a non-empty list the phase becomes `discard`
targeting its first player with quota `floor(total/2)`, otherwise the
phase becomes `robber`; no resources are touched.  A discard click on a
held kind removes exactly one card; once the quota is met the next listed
player is targeted with quota `floor(their total / 2)`, or the phase
becomes `robber` when none remain. -/
theorem claim_C4 :
    (∀ (s : PT.GState) (d1 d2 : Nat), d1 + d2 = 7 →
      (PT.handleDice s d1 d2).isOk = true ∧
      (PT.handleDice s d1 d2).state.players = s.players ∧
      (PT.overLimit s.players = [] →
        (PT.handleDice s d1 d2).state.phase = PT.Phase.robber) ∧
      (∀ j js, PT.overLimit s.players = j :: js →
        (PT.handleDice s d1 d2).state.phase = PT.Phase.discard ∧
        (PT.handleDice s d1 d2).state.currentIdx = j ∧
        (PT.handleDice s d1 d2).state.discardList = j :: js ∧
        (PT.handleDice s d1 d2).state.discardPtr = 0 ∧
        (PT.handleDice s d1 d2).state.toDiscard
          = Int.fdiv (PT.totalCards (s.players.getD j PT.defPlayer)) 2 ∧
        (PT.handleDice s d1 d2).state.discarded = 0)) ∧
    (∀ (s : PT.GState) (r : Res), s.phase = PT.Phase.discard →
      0 < (PT.currentP s).resources r →
      (PT.discardClick s r).isOk = true ∧
      ((PT.discardClick s r).state.players.getD s.currentIdx
          PT.defPlayer).resources r = (PT.currentP s).resources r - 1 ∧
      (s.discarded + 1 < s.toDiscard →
        (PT.discardClick s r).state.phase = PT.Phase.discard ∧
        (PT.discardClick s r).state.currentIdx = s.currentIdx ∧
        (PT.discardClick s r).state.discarded = s.discarded + 1) ∧
      (s.toDiscard ≤ s.discarded + 1 →
        (s.discardPtr + 1 < s.discardList.length →
          (PT.discardClick s r).state.phase = PT.Phase.discard ∧
          (PT.discardClick s r).state.currentIdx
            = s.discardList.getD (s.discardPtr + 1) 0 ∧
          (PT.discardClick s r).state.discarded = 0 ∧
          (PT.discardClick s r).state.toDiscard
            = Int.fdiv (PT.totalCards
                ((PT.discardClick s r).state.players.getD
                  (s.discardList.getD (s.discardPtr + 1) 0) PT.defPlayer)) 2) ∧
        (s.discardList.length ≤ s.discardPtr + 1 →
          (PT.discardClick s r).state.phase = PT.Phase.robber))) := by
  constructor
  · intro s d1 d2 h7
    unfold PT.handleDice
    dsimp only
    rw [if_pos h7]
    cases hL : PT.overLimit s.players with
    | nil =>
      refine ⟨rfl, rfl, fun _ => rfl, ?_⟩
      intro j js heq
      cases heq
    | cons j0 js0 =>
      refine ⟨rfl, rfl, ?_, ?_⟩
      · intro heq; cases heq
      · intro j js heq
        cases heq
        exact ⟨rfl, rfl, rfl, rfl, rfl, rfl⟩
  · intro s r hph hres
    have hcond : (s.phase == PT.Phase.discard
        && decide (0 < (PT.currentP s).resources r)) = true := by
      rw [hph]
      simp [hres]
    have hlt : s.currentIdx < s.players.length := by
      by_contra hge
      have hdef : PT.currentP s = PT.defPlayer := by
        unfold PT.currentP
        rw [List.getD_eq_default]
        omega
      rw [hdef] at hres
      simp [PT.defPlayer] at hres
    unfold PT.discardClick
    dsimp only [PT.modifyCurrent, PT.modifyAt]
    rw [if_pos hcond]
    have hread : ((s.players.set s.currentIdx
        (PT.addRes (s.players.getD s.currentIdx PT.defPlayer) r (-1))).getD
          s.currentIdx PT.defPlayer).resources r
        = (PT.currentP s).resources r - 1 := by
      rw [getD_set_self _ _ _ _ hlt, PT.addRes_resources, if_pos rfl]
      unfold PT.currentP
      omega
    refine ⟨?_, ?_, ?_, ?_⟩
    · split
      · split <;> rfl
      · rfl
    · split
      · split
        · exact hread
        · exact hread
      · exact hread
    · intro hq
      rw [if_neg (show ¬s.toDiscard ≤ s.discarded + 1 by omega)]
      exact ⟨hph, rfl, rfl⟩
    · intro hq
      constructor
      · intro hp
        rw [if_pos hq, if_pos hp]
        exact ⟨hph, rfl, rfl, rfl⟩
      · intro hp
        rw [if_pos hq,
          if_neg (show ¬s.discardPtr + 1 < s.discardList.length by omega)]
        rfl

set_option maxRecDepth 100000 in
/-- Witness for C4: rolling 3+4 in `c4s` (player 1 holds 9 cards, all
others 0) enters the discard phase targeting player 1 with quota 4. -/
theorem claim_C4_witness :
    (PT.handleDice c4s 3 4).state.phase = PT.Phase.discard ∧
    (PT.handleDice c4s 3 4).state.currentIdx = 1 ∧
    (PT.handleDice c4s 3 4).state.toDiscard = 4 := by
  have h := (claim_C4.1 c4s 3 4 rfl).2.2.2 1 [] (by rfl)
  refine ⟨h.1, h.2.1, ?_⟩
  rw [h.2.2.2.2.1]
  rfl

/-- C8: in the rob-choose phase, transferring from an eligible victim (a
different seat than the current player) moves exactly one card — drawn
from the victim's non-empty holdings by an arbitrary pick index — so the
victim's total drops by 1, the current player's rises by 1 and the global
card total is conserved; an empty-handed victim loses nothing; the phase
returns to `regular` in both cases. -/
theorem claim_C8 (s : PT.GState) (v i : Nat)
    (hv : v < s.players.length) (hc : s.currentIdx < s.players.length)
    (hne : v ≠ s.currentIdx) (_hph : s.phase = PT.Phase.robChoose) :
    (PT.robTransfer s v i).phase = PT.Phase.regular ∧
    (PT.poolOf (s.players.getD v PT.defPlayer) = [] →
      (PT.robTransfer s v i).players = s.players) ∧
    (PT.poolOf (s.players.getD v PT.defPlayer) ≠ [] →
      1 ≤ (s.players.getD v PT.defPlayer).resources
          ((PT.poolOf (s.players.getD v PT.defPlayer)).getD
            (i % (PT.poolOf (s.players.getD v PT.defPlayer)).length) Res.sheep) ∧
      PT.totalCards ((PT.robTransfer s v i).players.getD v PT.defPlayer)
        = PT.totalCards (s.players.getD v PT.defPlayer) - 1 ∧
      PT.totalCards ((PT.robTransfer s v i).players.getD s.currentIdx PT.defPlayer)
        = PT.totalCards (s.players.getD s.currentIdx PT.defPlayer) + 1 ∧
      PT.totalAll (PT.robTransfer s v i) = PT.totalAll s) := by
  refine ⟨?_, ?_, ?_⟩
  · rfl
  · intro hp
    unfold PT.robTransfer
    dsimp only
    rw [if_pos (by rw [hp]; rfl)]
  · intro hp
    have hpe : ¬(PT.poolOf (s.players.getD v PT.defPlayer)).isEmpty = true := by
      simp only [List.isEmpty_iff]
      exact hp
    have hk := PT.mem_poolOf (PT.getD_mem_of_nonempty hpe i Res.sheep)
    unfold PT.robTransfer PT.modifyCurrent PT.modifyAt
    dsimp only
    rw [if_neg hpe]
    dsimp only
    refine ⟨hk, ?_, ?_, ?_⟩
    · rw [getD_set_ne _ _ _ _ _ hne, getD_set_self _ _ _ _ hv,
        PT.totalCards_addRes]
      omega
    · rw [getD_set_self _ _ _ _ (by rw [List.length_set]; exact hc),
        PT.totalCards_addRes,
        getD_set_ne _ _ _ _ _ (fun he => hne he.symm)]
    · unfold PT.totalAll
      dsimp only
      rw [sum_map_set _ _ _ (by rw [List.length_set]; exact hc),
        sum_map_set _ _ _ hv,
        getD_set_ne _ _ _ _ _ (fun he => hne he.symm),
        PT.totalCards_addRes, PT.totalCards_addRes]
      ring

set_option maxRecDepth 100000 in
/-- Witness for C8: in `s8` (rob-choose phase, player 0 robbing player 1
who holds 9 sheep), transferring drops the victim to 8 cards, raises the
robber to 1, conserves the global total and returns to regular play. -/
theorem claim_C8_witness :
    PT.totalCards ((PT.robTransfer s8 1 0).players.getD 1 PT.defPlayer) = 8 ∧
    PT.totalCards ((PT.robTransfer s8 1 0).players.getD s8.currentIdx PT.defPlayer) = 1 ∧
    PT.totalAll (PT.robTransfer s8 1 0) = PT.totalAll s8 ∧
    (PT.robTransfer s8 1 0).phase = PT.Phase.regular := by
  have h := claim_C8 s8 1 0 (by decide) (by decide) (by decide) rfl
  have h2 := h.2.2 (by decide)
  refine ⟨?_, ?_, h2.2.2.2, h.1⟩
  · rw [h2.2.1]; rfl
  · rw [h2.2.2.1]; rfl
